import Mathlib

/-!
Verification of the request-caching and parallel-dispatch layer of the
martian_apart_hackathon repository, as specified in spec.md.

The shallow embedding below translates the Python functions of
`martian_compare.py` (and the sibling definitions in
`tool_intent_detection.py`) into Lean:

* `get_cache_key` (martian_compare.py lines 30-33): SHA-256 hex digest of the
  delimiter-joined descriptor fields.  SHA-256 itself (the `hashlib.sha256`
  call) is implemented in full below over `Nat`, so the digest function is a
  real executable function, faithful to FIPS 180-4.
* `get_cached_response` / `save_to_cache` (lines 35-47): the on-disk cache is
  modelled as a map from file name stem (the digest) to file state: no file,
  a deserializable file holding a saved entry, or a corrupt
  (undeserializable) file.  `json.load` on a corrupt file raises, which is
  modelled with `Except`.
* `send_to_martian_single` (lines 112-217): cache-first check, then the
  bounded retry loop with `(attempt + 1) * 2` second backoff sleeps on
  errors whose text contains "503".  The LLM client
  (`router.chat_completion`) is an external collaborator and is passed in as
  an oracle from attempt number to outcome; network calls and sleeps are
  tracked explicitly in the returned trace.
* `send_to_martian_parallel` (lines 219-243): pre-sized result slots, an
  arbitrary completion order (the `as_completed` order) given as a list of
  indices, in-place writes at the index the unit returned, and final
  filtering of absent slots.
* `clear_cache` (lines 398-414): full clear or selective clear of file names
  containing the substring "setup{i}".
* `ti_get_cache_key` / `ti_make_single_request`: the cache key and dispatch
  unit of `tool_intent_detection.py` (lines 68-74 and 135-166).

Python truthiness of optional strings (`if additional_payload:`,
`force_model or "gpt-4o-mini"`) is modelled explicitly: `None` and the empty
string are falsy.
-/

set_option maxRecDepth 4000

/-! ## Python substring test (`"503" in str(e)`, `"setup0" in cache_file`) -/

/-- Boolean test that the second list is a prefix of the first. -/
def isPrefixAt (p l : List Char) : Bool :=
  match p, l with
  | [], _ => true
  | _ :: _, [] => false
  | a :: ps, b :: ls => a == b && isPrefixAt ps ls

/-- Boolean test that `p` occurs as a contiguous sublist of `l`. -/
def isInfixList (p l : List Char) : Bool :=
  match l with
  | [] => p.isEmpty
  | _ :: ls => isPrefixAt p l || isInfixList p ls

/-- Python `needle in hay` on strings: contiguous substring containment. -/
def strContains (hay needle : String) : Bool :=
  isInfixList needle.toList hay.toList

/-! ## SHA-256 (FIPS 180-4), over `Nat` with explicit reduction mod 2^32.
This embeds the `hashlib.sha256(combined.encode()).hexdigest()` call used by
both `get_cache_key` implementations. -/

/-- Reduce a natural number to a 32-bit word. -/
def w32 (x : Nat) : Nat := x % 4294967296

/-- Right rotation of a 32-bit word by `n` bits. -/
def rotr (n x : Nat) : Nat := w32 ((x >>> n) ||| (x <<< (32 - n)))

/-- SHA-256 big sigma 0. -/
def bigS0 (x : Nat) : Nat := rotr 2 x ^^^ rotr 13 x ^^^ rotr 22 x

/-- SHA-256 big sigma 1. -/
def bigS1 (x : Nat) : Nat := rotr 6 x ^^^ rotr 11 x ^^^ rotr 25 x

/-- SHA-256 small sigma 0. -/
def smallS0 (x : Nat) : Nat := rotr 7 x ^^^ rotr 18 x ^^^ (x >>> 3)

/-- SHA-256 small sigma 1. -/
def smallS1 (x : Nat) : Nat := rotr 17 x ^^^ rotr 19 x ^^^ (x >>> 10)

/-- SHA-256 round constants. -/
def K256 : List Nat :=
  [1116352408, 1899447441, 3049323471, 3921009573, 961987163,
   1508970993, 2453635748, 2870763221, 3624381080, 310598401,
   607225278, 1426881987, 1925078388, 2162078206, 2614888103,
   3248222580, 3835390401, 4022224774, 264347078, 604807628,
   770255983, 1249150122, 1555081692, 1996064986, 2554220882,
   2821834349, 2952996808, 3210313671, 3336571891, 3584528711,
   113926993, 338241895, 666307205, 773529912, 1294757372,
   1396182291, 1695183700, 1986661051, 2177026350, 2456956037,
   2730485921, 2820302411, 3259730800, 3345764771, 3516065817,
   3600352804, 4094571909, 275423344, 430227734, 506948616,
   659060556, 883997877, 958139571, 1322822218, 1537002063,
   1747873779, 1955562222, 2024104815, 2227730452, 2361852424,
   2428436474, 2756734187, 3204031479, 3329325298]

/-- SHA-256 initial hash state. -/
def H256 : List Nat :=
  [1779033703, 3144134277, 1013904242, 2773480762,
   1359893119, 2600822924, 528734635, 1541459225]

/-- UTF-8 encoding of a single code point, as Python `str.encode()` does. -/
def utf8Bytes (c : Nat) : List Nat :=
  if c < 0x80 then [c]
  else if c < 0x800 then
    [0xC0 ||| (c >>> 6), 0x80 ||| (c &&& 0x3F)]
  else if c < 0x10000 then
    [0xE0 ||| (c >>> 12), 0x80 ||| ((c >>> 6) &&& 0x3F), 0x80 ||| (c &&& 0x3F)]
  else
    [0xF0 ||| (c >>> 18), 0x80 ||| ((c >>> 12) &&& 0x3F),
     0x80 ||| ((c >>> 6) &&& 0x3F), 0x80 ||| (c &&& 0x3F)]

/-- UTF-8 byte sequence of a string. -/
def strBytes (s : String) : List Nat := s.toList.flatMap (fun c => utf8Bytes c.toNat)

/-- Big-endian byte expansion of `v` to `k` bytes, most significant first. -/
def beBytes : Nat → Nat → List Nat
  | 0, _ => []
  | k + 1, v => beBytes k (v >>> 8) ++ [v &&& 255]

/-- SHA-256 message padding: append 0x80, zero bytes to 56 mod 64, then the
bit length as 8 big-endian bytes. -/
def padBytes (msg : List Nat) : List Nat :=
  msg ++ [0x80] ++ List.replicate ((119 - msg.length % 64) % 64) 0
      ++ beBytes 8 (msg.length * 8)

/-- Group bytes into big-endian 32-bit words. -/
def bytesToWords : List Nat → List Nat
  | b0 :: b1 :: b2 :: b3 :: rest =>
      ((((b0 <<< 8) ||| b1) <<< 8 ||| b2) <<< 8 ||| b3) :: bytesToWords rest
  | _ => []

/-- One step of the message-schedule extension; the accumulator is held
newest-first. -/
def extendStep (acc : List Nat) : List Nat :=
  w32 (acc.getD 15 0 + smallS0 (acc.getD 14 0) + acc.getD 6 0
        + smallS1 (acc.getD 1 0)) :: acc

/-- Extend 16 message words to the 64-entry SHA-256 schedule. -/
def schedule (ws16 : List Nat) : List Nat :=
  ((List.range 48).foldl (fun acc _ => extendStep acc) ws16.reverse).reverse

/-- One SHA-256 compression round on the state `[a,b,c,d,e,f,g,h]` with the
round constant and schedule word `kw`. -/
def compressRound (st : List Nat) (kw : Nat × Nat) : List Nat :=
  match st with
  | [a, b, c, d, e, f, g, h] =>
      let t1 := w32 (h + bigS1 e + ((e &&& f) ^^^ ((4294967295 ^^^ e) &&& g))
                      + kw.1 + kw.2)
      let t2 := w32 (bigS0 a + ((a &&& b) ^^^ (a &&& c) ^^^ (b &&& c)))
      [w32 (t1 + t2), a, b, c, w32 (d + t1), e, f, g]
  | _ => st

/-- Compress one 16-word chunk into the running hash state. -/
def compress (hs chunk : List Nat) : List Nat :=
  let st := (K256.zip (schedule chunk)).foldl compressRound hs
  (hs.zip st).map (fun p => w32 (p.1 + p.2))

/-- Group a word list into 16-word chunks, dropping any ragged tail (the
padded message length is always a multiple of 16 words). -/
def chunks16 : List Nat → List (List Nat)
  | a1 :: a2 :: a3 :: a4 :: a5 :: a6 :: a7 :: a8 ::
    a9 :: a10 :: a11 :: a12 :: a13 :: a14 :: a15 :: a16 :: rest =>
      [a1, a2, a3, a4, a5, a6, a7, a8,
       a9, a10, a11, a12, a13, a14, a15, a16] :: chunks16 rest
  | _ => []

/-- Fold the compression function over all 16-word chunks. -/
def processChunks (hs : List Nat) (ws : List Nat) : List Nat :=
  (chunks16 ws).foldl compress hs

/-- Lowercase hexadecimal digit. -/
def hexDigit (n : Nat) : Char :=
  if n < 10 then Char.ofNat (48 + n) else Char.ofNat (87 + n)

/-- Fixed-width lowercase hexadecimal expansion. -/
def toHexAux : Nat → Nat → List Char
  | 0, _ => []
  | d + 1, v => toHexAux d (v >>> 4) ++ [hexDigit (v &&& 15)]

/-- Eight-hex-digit rendering of a 32-bit word. -/
def wordHex (v : Nat) : String := String.mk (toHexAux 8 v)

/-- SHA-256 hex digest of a string, i.e.
`hashlib.sha256(s.encode()).hexdigest()`. -/
def sha256hex (s : String) : String :=
  String.join ((processChunks H256 (bytesToWords (padBytes (strBytes s)))).map wordHex)

/-! ## Cache data model.
A cache directory state maps a digest (the file name stem of
`_martian_cache/{digest}.json`) to the state of that file: absent, present
and deserializable with the saved entry, or present but corrupt so that
`json.load` raises. -/

/-- Shape of the object written by `save_to_cache` in the retry loop of
`send_to_martian_single` (martian_compare.py line 208). -/
structure CacheEntry where
  response : String
  model : String
  actual_model : String
deriving DecidableEq, Repr

/-- State of one cache file on disk. -/
inductive CacheFileData where
  | valid (e : CacheEntry)
  | corrupt
deriving DecidableEq, Repr

/-- State of the cache directory: file name stem to file state. -/
abbrev CacheMap := String → Option CacheFileData

/-- Delimiter-joined concatenation `f"{text}|{additional_payload}|{model}|{cache_key}"`
hashed by `get_cache_key` (martian_compare.py line 32). -/
def cacheKeyInput (text additional_payload model cache_key : String) : String :=
  text ++ "|" ++ additional_payload ++ "|" ++ model ++ "|" ++ cache_key

/-- Cache key of martian_compare.py lines 30-33: SHA-256 hex digest of the
delimiter-joined fields. -/
def get_cache_key (text additional_payload model cache_key : String) : String :=
  sha256hex (cacheKeyInput text additional_payload model cache_key)

/-- Cache read of martian_compare.py lines 35-41 (identical in
tool_intent_detection.py lines 77-83): return `none` when the file does not
exist, deserialize when it does; `json.load` on a corrupt file raises, which
is the `.error` case. -/
def get_cached_response (cache : CacheMap) (cache_key : String) : Except Unit (Option CacheEntry) :=
  match cache cache_key with
  | none => .ok none
  | some (.valid e) => .ok (some e)
  | some .corrupt => .error ()

/-- Cache write of martian_compare.py lines 43-47: (over)write the file named
by the digest with the serialized entry. -/
def save_to_cache (cache : CacheMap) (cache_key : String) (e : CacheEntry) : CacheMap :=
  fun k => if k = cache_key then some (.valid e) else cache k

/-- Cache clear of martian_compare.py lines 398-414 on the list of file names
in the cache directory: with a setup index, remove exactly the files whose
name contains the substring `"setup{i}"`; with no index, remove the whole
directory and recreate it empty. -/
def clear_cache (files : List String) (setup_index : Option Nat) : List String :=
  match setup_index with
  | some i => files.filter (fun f => !(strContains f ("setup" ++ toString i)))
  | none => []

/-! ## The dispatch unit `send_to_martian_single` (martian_compare.py 112-217). -/

/-- Python truthiness of an optional string: `None` and `""` are falsy. -/
def pyTruthy (o : Option String) : Bool :=
  match o with
  | none => false
  | some s => !(s == "")

/-- Python `x if x else d` (equivalently `x or d`) on an optional string. -/
def pyOrStr (o : Option String) (d : String) : String :=
  if pyTruthy o then o.getD d else d

/-- System prompt used when a payload is present (martian_compare.py lines
117-137, a triple-quoted literal kept verbatim including indentation). -/
def payloadSystemPrompt : String :=
  "\n        Format:\n        [synthesized statement starting directly with content]\n        00000--00000\n        [direct answer to additional question]\n\n        Description:\n        You must complete exactly two tasks in this specific order:\n\n        TASK 1: Create an extrapolated paragraph -\n        Synthesize the Compressed Details into a singular clear and concise statement. Focus on describing the event using only the information provided.\n\n        SEPARATOR: After completing Task 1, you MUST add a line containing exactly this text:\n        00000--00000\n\n        TASK 2: Answer the additional question provided.\n        CRITICAL: Answer DIRECTLY without any preamble. Do NOT include:\n        - Numbers like \"2.\"\n        - Labels like \"Task 2:\" or \"Answer:\"\n        - Any introduction or setup\n        "

/-- System prompt for the natural (no payload) test (martian_compare.py line 140). -/
def naturalSystemPrompt : String :=
  "Synthesize the Compressed Details into a singular clear and concise statement. Focus on describing the event using only the information provided. Do not add any preamble or labels."

/-- Cache key computed inside `send_to_martian_single` (martian_compare.py
lines 142-144): the payload slot of `get_cache_key` carries the system
prompt, the payload text (or `"NO_PAYLOAD"`), and the provider, and the run
tag is suffixed with `"_idx{index}"`. -/
def single_cache_hash (text : String) (index : Nat) (additional_payload force_model : Option String)
    (cache_key provider : String) : String :=
  get_cache_key text
    ("system_prompt_"
      ++ (if pyTruthy additional_payload then payloadSystemPrompt else naturalSystemPrompt)
      ++ "_" ++ pyOrStr additional_payload "NO_PAYLOAD" ++ "_provider_" ++ provider)
    (pyOrStr force_model "gpt-4o-mini")
    (cache_key ++ "_idx" ++ toString index)

/-- Outcome of one `router.chat_completion` call: either an exception with
its message text, or a response giving the generated content and the
optional `model` field (`response.get('model', model_to_use)`). -/
abbrev ClientOutcome := Except String (String × Option String)

/-- Value returned by a dispatch unit: `none` models the Python function
falling off the end of the retry loop and returning `None` (only possible
when `max_retries = 0`); otherwise `(index, data)` where `data = none` is
the `(index, None)` failure tuple, and otherwise the response data. -/
inductive UnitData where
  | cachedText (s : String)
  | fresh (text actualModel : String)
deriving DecidableEq, Repr

/-- Result of one dispatch unit together with the cache left behind and the
observable effects: number of client calls made and the list of backoff
sleeps (in seconds) in order. -/
structure DispatchOut where
  ret : Option (Nat × Option UnitData)
  cache : CacheMap
  calls : Nat
  sleeps : List Nat

/-- Retry loop of martian_compare.py lines 194-217, unrolled over the list of
attempt numbers `range(max_retries)`.  On success the response is written
through to the cache and `(index, (result, actual_model))` is returned; on an
error whose text contains "503" with attempts remaining it sleeps
`(attempt + 1) * 2` seconds and retries; otherwise it returns
`(index, None)`. -/
def attemptLoop (index : Nat) (cacheHash modelToUse : String) (maxRetries : Nat)
    (client : Nat → ClientOutcome) (cache : CacheMap) : List Nat → DispatchOut
  | [] => ⟨none, cache, 0, []⟩
  | a :: rest =>
    match client a with
    | .ok (content, mfield) =>
        ⟨some (index, some (.fresh content (mfield.getD modelToUse))),
         save_to_cache cache cacheHash ⟨content, modelToUse, mfield.getD modelToUse⟩, 1, []⟩
    | .error e =>
        if strContains e "503" = true ∧ a < maxRetries - 1 then
          let r := attemptLoop index cacheHash modelToUse maxRetries client cache rest
          ⟨r.ret, r.cache, r.calls + 1, (a + 1) * 2 :: r.sleeps⟩
        else ⟨some (index, none), cache, 1, []⟩

/-- Dispatch unit of martian_compare.py lines 112-217: compute the cache
key, short-circuit on a cache hit returning `cached['response']`, otherwise
run the retry loop against the client.  A corrupt cache file makes
`json.load` raise out of the whole function (`.error`). -/
def send_to_martian_single (text : String) (index : Nat) (additional_payload : Option String)
    (force_model : Option String) (max_retries : Nat) (cache_key : String) (provider : String)
    (cache : CacheMap) (client : Nat → ClientOutcome) : Except Unit DispatchOut :=
  let cache_hash := single_cache_hash text index additional_payload force_model cache_key provider
  match get_cached_response cache cache_hash with
  | .error e => .error e
  | .ok (some entry) => .ok ⟨some (index, some (.cachedText entry.response)), cache, 0, []⟩
  | .ok none =>
      .ok (attemptLoop index cache_hash (pyOrStr force_model "gpt-4o-mini") max_retries client
            cache (List.range max_retries))

/-! ## The parallel dispatcher `send_to_martian_parallel` (lines 219-243). -/

/-- Normalization at martian_compare.py lines 235-239: a tuple result keeps
only its first component (the response text), a plain string is kept as is,
and a `None` data value leaves the slot absent. -/
def normalize_result (d : Option UnitData) : Option String :=
  match d with
  | none => none
  | some (.cachedText s) => some s
  | some (.fresh t _) => some t

/-- One iteration of the collection loop: a falsy (`None`) unit result is
skipped, otherwise the normalized data is written at the index the unit
returned. -/
def write_result (results : List (Option String)) (r : Option (Nat × Option UnitData)) :
    List (Option String) :=
  match r with
  | none => results
  | some (idx, d) => results.set idx (normalize_result d)

/-- Outcome of one submitted future, per original submission index: either
the value `future.result()` yields, or the exception it re-raises. -/
abbrev ParUnit := Nat → Except Unit (Option (Nat × Option UnitData))

/-- Collection loop of martian_compare.py lines 230-240, folded over the
completion order of the futures; an exception re-raised by
`future.result()` propagates out of the loop. -/
def collectResults (unit : ParUnit) (init : List (Option String)) :
    List Nat → Except Unit (List (Option String))
  | [] => .ok init
  | i :: rest =>
    match unit i with
    | .error e => .error e
    | .ok r => collectResults unit (write_result init r) rest

/-- Parallel dispatcher of martian_compare.py lines 219-243: pre-size
`results = [None] * num_requests`, process completed units in an arbitrary
completion `order`, then filter out the absent slots. -/
def send_to_martian_parallel (unit : ParUnit) (num_requests : Nat) (order : List Nat) :
    Except Unit (List String) :=
  match collectResults unit (List.replicate num_requests none) order with
  | .error e => .error e
  | .ok results => .ok (results.filterMap id)

/-- Response text a unit contributes to the final output list, if any. -/
def unitText (unit : ParUnit) (i : Nat) : Option String :=
  match unit i with
  | .ok (some (_, d)) => normalize_result d
  | _ => none

/-! ## The tool_intent_detection.py variants (lines 68-74 and 135-166). -/

/-- Pre-hash input of tool_intent_detection.py lines 68-74:
`f"{prompt}|{model}|{request_idx}"` when an index is given, else
`f"{prompt}|{model}"` (the Python check is `is not None`, so index 0 counts
as given). -/
def ti_cacheKeyInput (prompt model : String) (request_idx : Option Nat) : String :=
  match request_idx with
  | some i => prompt ++ "|" ++ model ++ "|" ++ toString i
  | none => prompt ++ "|" ++ model

/-- Cache key of tool_intent_detection.py lines 68-74. -/
def ti_get_cache_key (prompt model : String) (request_idx : Option Nat) : String :=
  sha256hex (ti_cacheKeyInput prompt model request_idx)

/-- Full API response object cached by tool_intent_detection.py; only its
generated content is relevant here. -/
structure TIResponse where
  content : String
deriving DecidableEq, Repr

/-- State of one cache file of tool_intent_detection.py. -/
inductive TICacheFileData where
  | valid (r : TIResponse)
  | corrupt
deriving DecidableEq, Repr

/-- Cache directory state for tool_intent_detection.py. -/
abbrev TICacheMap := String → Option TICacheFileData

/-- Cache read of tool_intent_detection.py lines 77-83, same logic as
`get_cached_response`. -/
def ti_get_cached_response (cache : TICacheMap) (cache_key : String) :
    Except Unit (Option TIResponse) :=
  match cache cache_key with
  | none => .ok none
  | some (.valid r) => .ok (some r)
  | some .corrupt => .error ()

/-- Cache write of tool_intent_detection.py lines 86-90. -/
def ti_save_to_cache (cache : TICacheMap) (cache_key : String) (r : TIResponse) : TICacheMap :=
  fun k => if k = cache_key then some (.valid r) else cache k

/-- Result dictionary of `make_single_request`. -/
structure TIRequestResult where
  response : TIResponse
  request_idx : Nat
  query_type : String
  from_cache : Bool

/-- Dispatch unit of tool_intent_detection.py lines 135-166: on a cache hit
return the cached response with `from_cache = True` and no client call; on a
miss call the client once (no retry loop here), write through, and return
`from_cache = False`.  The third component counts client calls. -/
def ti_make_single_request (prompt model : String) (request_idx : Nat) (query_type : String)
    (cache : TICacheMap) (client : TIResponse) :
    Except Unit (TIRequestResult × TICacheMap × Nat) :=
  let cache_key := ti_get_cache_key prompt model (some request_idx)
  match ti_get_cached_response cache cache_key with
  | .error e => .error e
  | .ok (some r) => .ok (⟨r, request_idx, query_type, true⟩, cache, 0)
  | .ok none =>
      .ok (⟨client, request_idx, query_type, false⟩, ti_save_to_cache cache cache_key client, 1)

/-- Unit function the parallel dispatcher of martian_compare.py runs for
index `i`: the value `future.result()` yields for the single-dispatch call
at that index, with the per-index client oracle `clients i`.  The cache
argument is the directory state each unit observes; interleavings of
concurrent cache writes are not modelled (no claim here depends on them). -/
def parallelUnit (text : String) (additional_payload force_model : Option String)
    (cache_key provider : String) (cache : CacheMap) (clients : Nat → Nat → ClientOutcome) :
    ParUnit :=
  fun i =>
    (send_to_martian_single text i additional_payload force_model 3 cache_key provider cache
      (clients i)).map DispatchOut.ret

/-! ## Helper lemmas about the pre-hash cache-key input. -/

/-- Character-list shape of the delimiter-joined cache-key input. -/
theorem cacheKeyInput_data (t p m k : String) :
    (cacheKeyInput t p m k).data
      = t.data ++ '|' :: (p.data ++ '|' :: (m.data ++ '|' :: k.data)) := by
  have hp : ("|" : String).data = ['|'] := rfl
  simp [cacheKeyInput, String.data_append, hp]

/-- A change of the prompt text alone changes the joined input. -/
theorem cacheKeyInput_text_inj {t1 t2 p m k : String}
    (h : cacheKeyInput t1 p m k = cacheKeyInput t2 p m k) : t1 = t2 := by
  have hd := congrArg String.data h
  rw [cacheKeyInput_data, cacheKeyInput_data] at hd
  exact String.ext (List.append_cancel_right hd)

/-- A change of the payload field alone changes the joined input. -/
theorem cacheKeyInput_payload_inj {t p1 p2 m k : String}
    (h : cacheKeyInput t p1 m k = cacheKeyInput t p2 m k) : p1 = p2 := by
  have hd := congrArg String.data h
  rw [cacheKeyInput_data, cacheKeyInput_data] at hd
  have h1 := List.append_cancel_left hd
  injection h1 with _ h2
  exact String.ext (List.append_cancel_right h2)

/-- A change of the model field alone changes the joined input. -/
theorem cacheKeyInput_model_inj {t p m1 m2 k : String}
    (h : cacheKeyInput t p m1 k = cacheKeyInput t p m2 k) : m1 = m2 := by
  have hd := congrArg String.data h
  rw [cacheKeyInput_data, cacheKeyInput_data] at hd
  have h1 := List.append_cancel_left hd
  injection h1 with _ h2
  have h3 := List.append_cancel_left h2
  injection h3 with _ h4
  exact String.ext (List.append_cancel_right h4)

/-- A change of the index/run-tag field alone changes the joined input. -/
theorem cacheKeyInput_key_inj {t p m k1 k2 : String}
    (h : cacheKeyInput t p m k1 = cacheKeyInput t p m k2) : k1 = k2 := by
  have hd := congrArg String.data h
  rw [cacheKeyInput_data, cacheKeyInput_data] at hd
  have h1 := List.append_cancel_left hd
  injection h1 with _ h2
  have h3 := List.append_cancel_left h2
  injection h3 with _ h4
  have h5 := List.append_cancel_left h4
  injection h5 with _ h6
  exact String.ext h6

/-- C1 counterexample: the descriptors ("a|b", "c", "m", "k") and
("a", "b|c", "m", "k") differ in two fields, yet get_cache_key produces the
same digest for both, because the "|" delimiter-join maps them to the same
combined string; so differing descriptors do not always get different
digests. -/
theorem C1_counterexample :
    (("a|b", "c", "m", "k") : String × String × String × String) ≠ ("a", "b|c", "m", "k")
    ∧ get_cache_key "a|b" "c" "m" "k" = get_cache_key "a" "b|c" "m" "k" := by
  refine ⟨by decide, ?_⟩
  unfold get_cache_key
  exact congrArg sha256hex (by decide)

/-- C1 (amended): changing exactly one field of the request descriptor
(prompt, payload, model, or index/run tag) always changes the
delimiter-joined string that get_cache_key feeds to SHA-256; in particular
two descriptors differing only in the index never present the same input to
the hash.  The original claim, that descriptors differing in at least one
field always receive different digests, fails when several fields change at
once: the "|" join is ambiguous across field boundaries (see the
counterexample), and equal hash inputs give equal digests. -/
theorem C1_cache_key_field_sensitivity :
    (∀ t1 t2 p m k : String, t1 ≠ t2 → cacheKeyInput t1 p m k ≠ cacheKeyInput t2 p m k)
    ∧ (∀ t p1 p2 m k : String, p1 ≠ p2 → cacheKeyInput t p1 m k ≠ cacheKeyInput t p2 m k)
    ∧ (∀ t p m1 m2 k : String, m1 ≠ m2 → cacheKeyInput t p m1 k ≠ cacheKeyInput t p m2 k)
    ∧ (∀ t p m k1 k2 : String, k1 ≠ k2 → cacheKeyInput t p m k1 ≠ cacheKeyInput t p m k2) :=
  ⟨fun _ _ _ _ _ hne heq => hne (cacheKeyInput_text_inj heq),
   fun _ _ _ _ _ hne heq => hne (cacheKeyInput_payload_inj heq),
   fun _ _ _ _ _ hne heq => hne (cacheKeyInput_model_inj heq),
   fun _ _ _ _ _ hne heq => hne (cacheKeyInput_key_inj heq)⟩

/-- Witness for C1: concrete single-field changes, including two descriptors
differing only in the index tag (run_0_idx0 versus run_0_idx1). -/
theorem C1_cache_key_field_sensitivity_witness :
    cacheKeyInput "t1" "p" "m" "run_0_idx0" ≠ cacheKeyInput "t2" "p" "m" "run_0_idx0"
    ∧ cacheKeyInput "t" "p1" "m" "k" ≠ cacheKeyInput "t" "p2" "m" "k"
    ∧ cacheKeyInput "t" "p" "m1" "k" ≠ cacheKeyInput "t" "p" "m2" "k"
    ∧ cacheKeyInput "t" "p" "m" "run_0_idx0" ≠ cacheKeyInput "t" "p" "m" "run_0_idx1" :=
  ⟨C1_cache_key_field_sensitivity.1 "t1" "t2" "p" "m" "run_0_idx0" (by decide),
   C1_cache_key_field_sensitivity.2.1 "t" "p1" "p2" "m" "k" (by decide),
   C1_cache_key_field_sensitivity.2.2.1 "t" "p" "m1" "m2" "k" (by decide),
   C1_cache_key_field_sensitivity.2.2.2 "t" "p" "m" "run_0_idx0" "run_0_idx1" (by decide)⟩

/-! ## C7, C8, C9: cache get/put/clear semantics. -/

/-- Cache state in which every file exists but is undeserializable. -/
def corruptOnlyCache : CacheMap := fun _ => some .corrupt

/-- C7 counterexample: on a corrupt cache file, get_cached_response does not
return a miss, it raises (json.load fails); and in martian_compare the
exception propagates out of the unit and aborts the whole parallel batch
rather than triggering a re-fetch. -/
theorem C7_counterexample :
    get_cached_response corruptOnlyCache "0abc" = .error ()
    ∧ get_cached_response corruptOnlyCache "0abc" ≠ .ok none
    ∧ send_to_martian_parallel
        (parallelUnit "t" none none "run_0" "martian" corruptOnlyCache (fun _ _ => .ok ("x", none)))
        3 [0, 1, 2] = .error () :=
  ⟨rfl, fun h => Except.noConfusion h, rfl⟩

/-- C7 (amended): a missing cache file behaves as a cache miss and never
raises; a corrupt (undeserializable) cache file is not treated as a miss:
get_cached_response raises the deserialization error, which in
martian_compare propagates out of the dispatch unit. -/
theorem C7_missing_or_corrupt_cache :
    (∀ (cache : CacheMap) (k : String), cache k = none → get_cached_response cache k = .ok none)
    ∧ (∀ (cache : CacheMap) (k : String), cache k = some .corrupt →
        get_cached_response cache k = .error ()) := by
  constructor <;> · intro cache k h; simp [get_cached_response, h]

/-- Witness for C7 (amended) at concrete cache states. -/
theorem C7_missing_or_corrupt_cache_witness :
    get_cached_response (fun _ => none) "0abc" = .ok none
    ∧ get_cached_response corruptOnlyCache "0abc" = .error () :=
  ⟨C7_missing_or_corrupt_cache.1 (fun _ => none) "0abc" rfl,
   C7_missing_or_corrupt_cache.2 corruptOnlyCache "0abc" rfl⟩

/-- C8: writing an entry and then reading the same digest returns the
written entry, and re-writing the same digest with the same content leaves
the cache state unchanged (exactly one entry, re-write a no-op in effect). -/
theorem C8_cache_roundtrip_idempotent :
    ∀ (cache : CacheMap) (k : String) (e : CacheEntry),
      get_cached_response (save_to_cache cache k e) k = .ok (some e)
      ∧ save_to_cache (save_to_cache cache k e) k e = save_to_cache cache k e := by
  intro cache k e
  constructor
  · simp [get_cached_response, save_to_cache]
  · funext k2
    by_cases h : k2 = k <;> simp [save_to_cache, h]

/-- C9: the selective clear keeps exactly the cache files whose name does
not contain the substring "setup{i}", deleting all and only the matching
ones; clear with no setup index deletes every entry. -/
theorem C9_clear_cache_selective :
    ∀ (files : List String) (i : Nat) (f : String),
      (f ∈ clear_cache files (some i)
        ↔ f ∈ files ∧ strContains f ("setup" ++ toString i) = false)
      ∧ clear_cache files none = [] := by
  intro files i f
  refine ⟨?_, rfl⟩
  simp [clear_cache, List.mem_filter]

/-! ## Helper lemmas about the dispatch unit. -/

/-- Cache-hit short-circuit of `send_to_martian_single`: a warm cache entry
is returned unchanged with zero client calls and zero sleeps. -/
theorem single_warm (text : String) (index : Nat) (ap fm : Option String) (mr : Nat)
    (ck prov : String) (cache : CacheMap) (client : Nat → ClientOutcome) (entry : CacheEntry)
    (h : cache (single_cache_hash text index ap fm ck prov) = some (.valid entry)) :
    send_to_martian_single text index ap fm mr ck prov cache client
      = .ok ⟨some (index, some (.cachedText entry.response)), cache, 0, []⟩ := by
  simp [send_to_martian_single, get_cached_response, h]

/-- Unfolding of one retry-loop step when the client call raises. -/
theorem attemptLoop_cons_error (index : Nat) (ch mtu : String) (mr : Nat)
    (client : Nat → ClientOutcome) (cache : CacheMap) (a : Nat) (rest : List Nat) (m : String)
    (hm : client a = .error m) :
    attemptLoop index ch mtu mr client cache (a :: rest)
      = if strContains m "503" = true ∧ a < mr - 1 then
          ⟨(attemptLoop index ch mtu mr client cache rest).ret,
           (attemptLoop index ch mtu mr client cache rest).cache,
           (attemptLoop index ch mtu mr client cache rest).calls + 1,
           (a + 1) * 2 :: (attemptLoop index ch mtu mr client cache rest).sleeps⟩
        else ⟨some (index, none), cache, 1, []⟩ := by
  rw [attemptLoop, hm]

/-- Unfolding of one retry-loop step when the client call succeeds. -/
theorem attemptLoop_cons_ok (index : Nat) (ch mtu : String) (mr : Nat)
    (client : Nat → ClientOutcome) (cache : CacheMap) (a : Nat) (rest : List Nat)
    (content : String) (mfield : Option String)
    (hm : client a = .ok (content, mfield)) :
    attemptLoop index ch mtu mr client cache (a :: rest)
      = ⟨some (index, some (.fresh content (mfield.getD mtu))),
         save_to_cache cache ch ⟨content, mtu, mfield.getD mtu⟩, 1, []⟩ := by
  rw [attemptLoop, hm]

/-- Behavior of the retry loop against a client that always raises a
503-class error: every attempt is consumed, each non-final attempt sleeps
`(attempt + 1) * 2`, and the unit ends failed with the cache untouched. -/
theorem attemptLoop_all503 (index : Nat) (ch mtu : String) (mr : Nat)
    (client : Nat → ClientOutcome) (cache : CacheMap)
    (h503 : ∀ a, ∃ m, client a = .error m ∧ strContains m "503" = true) :
    ∀ k s : Nat, 0 < k → s + k = mr →
      attemptLoop index ch mtu mr client cache (List.range' s k)
        = ⟨some (index, none), cache, k, (List.range' s (k - 1)).map (fun a => (a + 1) * 2)⟩ := by
  intro k
  induction k with
  | zero => intro s h0 _; exact absurd h0 (by omega)
  | succ j ih =>
    intro s _ hsum
    obtain ⟨m, hm, hs⟩ := h503 s
    rw [List.range'_succ]
    by_cases hj : j = 0
    · subst hj
      have hc : ¬ (strContains m "503" = true ∧ s < mr - 1) := by
        rw [hs]; simp; omega
      rw [attemptLoop_cons_error index ch mtu mr client cache s _ m hm, if_neg hc]
      simp [List.range']
    · obtain ⟨j2, rfl⟩ : ∃ j2, j = j2 + 1 := ⟨j - 1, by omega⟩
      have hc : strContains m "503" = true ∧ s < mr - 1 := ⟨hs, by omega⟩
      have ihh := ih (s + 1) (by omega) (by omega)
      rw [attemptLoop_cons_error index ch mtu mr client cache s _ m hm, if_pos hc, ihh]
      rw [show j2 + 1 + 1 - 1 = j2 + 1 by omega, List.range'_succ]
      simp

/-- If the retry loop ends with a fresh success carrying text `t` and actual
model `am`, the cache it leaves behind holds exactly the written entry at
the requested digest. -/
theorem attemptLoop_fresh_cache (index : Nat) (ch mtu : String) (mr : Nat)
    (client : Nat → ClientOutcome) (cache : CacheMap) :
    ∀ (l : List Nat) (t am : String),
      (attemptLoop index ch mtu mr client cache l).ret = some (index, some (.fresh t am)) →
      (attemptLoop index ch mtu mr client cache l).cache ch = some (.valid ⟨t, mtu, am⟩) := by
  intro l
  induction l with
  | nil => intro t am h; exact absurd h (by simp [attemptLoop])
  | cons a rest ih =>
    intro t am h
    cases hcl : client a with
    | ok pr =>
      obtain ⟨content, mfield⟩ := pr
      rw [attemptLoop_cons_ok index ch mtu mr client cache a rest content mfield hcl] at h ⊢
      simp only [DispatchOut.ret, Option.some.injEq, Prod.mk.injEq, UnitData.fresh.injEq,
        true_and] at h
      obtain ⟨h1, h2⟩ := h
      simp [save_to_cache, h1, h2]
    | error e =>
      rw [attemptLoop_cons_error index ch mtu mr client cache a rest e hcl] at h ⊢
      by_cases hcond : strContains e "503" = true ∧ a < mr - 1
      · rw [if_pos hcond] at h ⊢
        exact ih t am h
      · rw [if_neg hcond] at h ⊢
        simp at h

/-- Case-analysis form of the dispatch unit, by the state of the cache file
at its digest. -/
theorem send_single_cases (text : String) (index : Nat) (ap fm : Option String) (mr : Nat)
    (ck prov : String) (cache : CacheMap) (client : Nat → ClientOutcome) :
    send_to_martian_single text index ap fm mr ck prov cache client
      = match cache (single_cache_hash text index ap fm ck prov) with
        | some .corrupt => .error ()
        | some (.valid entry) =>
            .ok ⟨some (index, some (.cachedText entry.response)), cache, 0, []⟩
        | none =>
            .ok (attemptLoop index (single_cache_hash text index ap fm ck prov)
                  (pyOrStr fm "gpt-4o-mini") mr client cache (List.range mr)) := by
  cases hcr : cache (single_cache_hash text index ap fm ck prov) with
  | none => simp [send_to_martian_single, get_cached_response, hcr]
  | some fd => cases fd <;> simp [send_to_martian_single, get_cached_response, hcr]

/-- A dispatch unit that returns a fresh success leaves the cache warm at
its own digest, with the returned text as the stored response. -/
theorem single_fresh_warms_cache (text : String) (index : Nat) (ap fm : Option String)
    (mr : Nat) (ck prov : String) (cache : CacheMap) (client : Nat → ClientOutcome)
    (out : DispatchOut) (t am : String)
    (h : send_to_martian_single text index ap fm mr ck prov cache client = .ok out)
    (hret : out.ret = some (index, some (.fresh t am))) :
    out.cache (single_cache_hash text index ap fm ck prov)
      = some (.valid ⟨t, pyOrStr fm "gpt-4o-mini", am⟩) := by
  rw [send_single_cases] at h
  cases hcr : cache (single_cache_hash text index ap fm ck prov) with
  | none =>
      rw [hcr] at h
      simp only [Except.ok.injEq] at h
      rw [← h] at hret ⊢
      exact attemptLoop_fresh_cache index _ _ mr client cache _ t am hret
  | some fd =>
      cases fd with
      | valid e =>
          rw [hcr] at h
          simp only [Except.ok.injEq] at h
          rw [← h] at hret
          simp at hret
      | corrupt =>
          rw [hcr] at h
          exact absurd h (by simp)

/-! ## Concrete fixtures used by the witnesses. -/

/-- Cold cache: no file exists. -/
def emptyCache : CacheMap := fun _ => none

/-- Warm cache: every file exists and deserializes to a fixed entry. -/
def warmAllCache : CacheMap := fun _ => some (.valid ⟨"r", "m", "am"⟩)

/-- Client that always raises a 503-class error. -/
def clientAlways503 : Nat → ClientOutcome := fun _ => .error "503 Service Unavailable"

/-- Client that always raises a non-transient error. -/
def clientAuthFail : Nat → ClientOutcome := fun _ => .error "401 Unauthorized"

/-- Client that always succeeds. -/
def clientAlwaysOk : Nat → ClientOutcome := fun _ => .ok ("resp", some "gpt-4o")

/-- Cache state left behind by a fresh success of the demo descriptor. -/
def cacheAfterFresh : CacheMap :=
  save_to_cache emptyCache (single_cache_hash "t" 0 none none "run_0" "martian")
    ⟨"resp", "gpt-4o-mini", "gpt-4o"⟩

/-- Warm tool_intent_detection cache. -/
def tiWarmAllCache : TICacheMap := fun _ => some (.valid ⟨"cr"⟩)

/-! ## C2, C3, C6: dispatch-unit behavior. -/

/-- C2: cache-first short-circuit.  First conjunct: a unit whose cache entry
is present returns the cached response with zero client calls, zero sleeps,
and an unchanged cache.  Second conjunct: a unit that completed with a fresh
network success leaves the cache warm, so re-dispatching the same descriptor
returns the same text with zero additional network calls, whatever the
second client would do.  Third conjunct: the same short-circuit for
make_single_request of tool_intent_detection.py, which reports
from_cache = true and zero calls on a hit. -/
theorem C2_warm_cache_no_network :
    (∀ (text : String) (index : Nat) (ap fm : Option String) (mr : Nat) (ck prov : String)
        (cache : CacheMap) (client : Nat → ClientOutcome) (entry : CacheEntry),
        cache (single_cache_hash text index ap fm ck prov) = some (.valid entry) →
        send_to_martian_single text index ap fm mr ck prov cache client
          = .ok ⟨some (index, some (.cachedText entry.response)), cache, 0, []⟩)
    ∧ (∀ (text : String) (index : Nat) (ap fm : Option String) (mr : Nat) (ck prov : String)
        (cache : CacheMap) (client client2 : Nat → ClientOutcome) (out : DispatchOut)
        (t am : String),
        send_to_martian_single text index ap fm mr ck prov cache client = .ok out →
        out.ret = some (index, some (.fresh t am)) →
        send_to_martian_single text index ap fm mr ck prov out.cache client2
          = .ok ⟨some (index, some (.cachedText t)), out.cache, 0, []⟩)
    ∧ (∀ (prompt mdl : String) (request_idx : Nat) (query_type : String) (cache : TICacheMap)
        (client r : TIResponse),
        cache (ti_get_cache_key prompt mdl (some request_idx)) = some (.valid r) →
        ti_make_single_request prompt mdl request_idx query_type cache client
          = .ok (⟨r, request_idx, query_type, true⟩, cache, 0)) := by
  refine ⟨?_, ?_, ?_⟩
  · intro text index ap fm mr ck prov cache client entry h
    exact single_warm text index ap fm mr ck prov cache client entry h
  · intro text index ap fm mr ck prov cache client client2 out t am h hret
    have hw := single_fresh_warms_cache text index ap fm mr ck prov cache client out t am h hret
    exact single_warm text index ap fm mr ck prov out.cache client2
      ⟨t, pyOrStr fm "gpt-4o-mini", am⟩ hw
  · intro prompt mdl request_idx query_type cache client r h
    simp [ti_make_single_request, ti_get_cached_response, h]

/-- Witness for C2: a warm cache returns the cached text with zero calls; a
fresh success followed by a re-dispatch of the same descriptor also costs
zero additional calls even against a client that would fail; the
tool_intent_detection unit behaves the same. -/
theorem C2_warm_cache_no_network_witness :
    send_to_martian_single "t" 0 none none 3 "run_0" "martian" warmAllCache clientAlways503
      = .ok ⟨some (0, some (.cachedText "r")), warmAllCache, 0, []⟩
    ∧ send_to_martian_single "t" 0 none none 3 "run_0" "martian" cacheAfterFresh clientAlways503
      = .ok ⟨some (0, some (.cachedText "resp")), cacheAfterFresh, 0, []⟩
    ∧ ti_make_single_request "p" "router" 0 "clean" tiWarmAllCache ⟨"x"⟩
      = .ok (⟨⟨"cr"⟩, 0, "clean", true⟩, tiWarmAllCache, 0) :=
  ⟨C2_warm_cache_no_network.1 "t" 0 none none 3 "run_0" "martian" warmAllCache clientAlways503
      ⟨"r", "m", "am"⟩ rfl,
   C2_warm_cache_no_network.2.1 "t" 0 none none 3 "run_0" "martian" emptyCache clientAlwaysOk
      clientAlways503 ⟨some (0, some (.fresh "resp" "gpt-4o")), cacheAfterFresh, 1, []⟩
      "resp" "gpt-4o" rfl rfl,
   C2_warm_cache_no_network.2.2 "p" "router" 0 "clean" tiWarmAllCache ⟨"x"⟩ ⟨"cr"⟩ rfl⟩

/-- C3: against a client that always raises a 503-class transient error and
a cold cache entry, the unit makes exactly `max_retries` client calls,
sleeping `(attempt + 1) * 2` seconds between attempts (base 2 times 1, then
base 2 times 2, ... ), then returns the failure tuple `(index, None)` so
the slot ends absent; the loop is bounded by `max_retries`. -/
theorem C3_retry_ceiling_and_backoff (text : String) (index : Nat) (ap fm : Option String)
    (mr : Nat) (ck prov : String) (cache : CacheMap) (client : Nat → ClientOutcome)
    (hmr : 0 < mr)
    (hmiss : cache (single_cache_hash text index ap fm ck prov) = none)
    (h503 : ∀ a, ∃ m, client a = .error m ∧ strContains m "503" = true) :
    send_to_martian_single text index ap fm mr ck prov cache client
      = .ok ⟨some (index, none), cache, mr,
             (List.range (mr - 1)).map (fun a => (a + 1) * 2)⟩ := by
  have hal := attemptLoop_all503 index (single_cache_hash text index ap fm ck prov)
      (pyOrStr fm "gpt-4o-mini") mr client cache h503 mr 0 hmr (by omega)
  rw [send_single_cases, hmiss]
  show Except.ok (attemptLoop index (single_cache_hash text index ap fm ck prov)
        (pyOrStr fm "gpt-4o-mini") mr client cache (List.range mr)) = _
  rw [List.range_eq_range', hal, List.range_eq_range']

/-- Witness for C3 at the configured ceiling 3: exactly three calls, backoff
delays 2 then 4 seconds, and an absent result. -/
theorem C3_retry_ceiling_and_backoff_witness :
    send_to_martian_single "t" 0 none none 3 "run_0" "martian" emptyCache clientAlways503
      = .ok ⟨some (0, none), emptyCache, 3, [2, 4]⟩ := by
  have h := C3_retry_ceiling_and_backoff "t" 0 none none 3 "run_0" "martian" emptyCache
      clientAlways503 (by omega) rfl (fun a => ⟨"503 Service Unavailable", rfl, by decide⟩)
  rw [h]
  rfl

/-- C6: a unit whose first client call raises a non-transient error (its
text does not contain "503") is not retried: exactly one client call, no
backoff sleep, and the failure tuple `(index, None)` is returned at once so
the slot ends absent. -/
theorem C6_permanent_failure_immediate (text : String) (index : Nat) (ap fm : Option String)
    (mr : Nat) (ck prov : String) (cache : CacheMap) (client : Nat → ClientOutcome) (m : String)
    (hmr : 0 < mr)
    (hmiss : cache (single_cache_hash text index ap fm ck prov) = none)
    (hc : client 0 = .error m)
    (hperm : strContains m "503" = false) :
    send_to_martian_single text index ap fm mr ck prov cache client
      = .ok ⟨some (index, none), cache, 1, []⟩ := by
  obtain ⟨j, rfl⟩ : ∃ j, mr = j + 1 := ⟨mr - 1, by omega⟩
  have hcond : ¬ (strContains m "503" = true ∧ 0 < j + 1 - 1) := by
    simp [hperm]
  rw [send_single_cases, hmiss]
  show Except.ok (attemptLoop index (single_cache_hash text index ap fm ck prov)
        (pyOrStr fm "gpt-4o-mini") (j + 1) client cache (List.range (j + 1))) = _
  rw [List.range_eq_range', List.range'_succ,
      attemptLoop_cons_error index _ _ (j + 1) client cache 0 _ m hc, if_neg hcond]

/-- Witness for C6: an auth-style failure at the first call gives one call,
no sleeps, and an absent slot. -/
theorem C6_permanent_failure_immediate_witness :
    send_to_martian_single "t" 0 none none 3 "run_0" "martian" emptyCache clientAuthFail
      = .ok ⟨some (0, none), emptyCache, 1, []⟩ :=
  C6_permanent_failure_immediate "t" 0 none none 3 "run_0" "martian" emptyCache clientAuthFail
    "401 Unauthorized" (by omega) rfl rfl (by decide)

/-! ## Helper lemmas about the parallel collection loop. -/

/-- Unfolding of one collection step whose unit completed normally. -/
theorem collectResults_cons (unit : ParUnit) (init : List (Option String)) (i : Nat)
    (rest : List Nat) (r : Option (Nat × Option UnitData)) (h : unit i = .ok r) :
    collectResults unit init (i :: rest) = collectResults unit (write_result init r) rest := by
  rw [collectResults, h]

/-- Invariant of the collection loop: provided every unit in the completion
order completed normally and every unit reports its own submission index,
the loop succeeds, keeps the slot count, and leaves slot `j` holding the
normalized data of unit `j` exactly when `j` occurred in the order. -/
theorem collectResults_spec (unit : ParUnit)
    (hidx : ∀ i p, unit i = .ok (some p) → p.1 = i) :
    ∀ (order : List Nat) (init : List (Option String)),
      (∀ i, i ∈ order → ∃ v, unit i = .ok v) →
      (∀ j, j < init.length → init[j]? = some none ∨ init[j]? = some (unitText unit j)) →
      ∃ res, collectResults unit init order = .ok res
        ∧ res.length = init.length
        ∧ ∀ j, j < init.length →
            res[j]? = if j ∈ order then some (unitText unit j) else init[j]? := by
  intro order
  induction order with
  | nil =>
    intro init _ _
    exact ⟨init, rfl, rfl, fun j _ => by simp⟩
  | cons i rest ih =>
    intro init hok hinit
    obtain ⟨v, hv⟩ := hok i (by simp)
    have hlen : (write_result init v).length = init.length := by
      cases v with
      | none => rfl
      | some p => simp [write_result, List.length_set]
    have hinit2 : ∀ j, j < (write_result init v).length →
        (write_result init v)[j]? = some none
          ∨ (write_result init v)[j]? = some (unitText unit j) := by
      intro j hj
      rw [hlen] at hj
      cases v with
      | none => exact hinit j hj
      | some p =>
        obtain ⟨idx, d⟩ := p
        have hidx2 : idx = i := hidx i (idx, d) hv
        subst hidx2
        by_cases hij : idx = j
        · right
          subst hij
          rw [write_result, List.getElem?_set, if_pos rfl, if_pos hj]
          rw [unitText, hv]
        · rw [write_result, List.getElem?_set, if_neg hij]
          exact hinit j hj
    obtain ⟨res, hres, hlen2, hget⟩ := ih (write_result init v)
      (fun i2 hi2 => hok i2 (by simp [hi2])) hinit2
    refine ⟨res, ?_, by rw [hlen2, hlen], ?_⟩
    · rw [collectResults_cons unit init i rest v hv]
      exact hres
    · intro j hj
      have hj2 : j < (write_result init v).length := by rw [hlen]; exact hj
      by_cases hjr : j ∈ rest
      · rw [hget j hj2, if_pos hjr, if_pos (by simp [hjr])]
      · rw [hget j hj2, if_neg hjr]
        by_cases hji : j = i
        · rw [if_pos (by simp [hji])]
          subst hji
          cases v with
          | none =>
            rcases hinit j hj with h1 | h1
            · rw [write_result, h1, unitText, hv]
            · rw [write_result, h1]
          | some p =>
            obtain ⟨idx, d⟩ := p
            have hidx2 : idx = j := hidx j (idx, d) hv
            subst hidx2
            rw [write_result, List.getElem?_set, if_pos rfl, if_pos hj]
            rw [unitText, hv]
        · rw [if_neg (by simp [hji, hjr])]
          cases v with
          | none => rfl
          | some p =>
            obtain ⟨idx, d⟩ := p
            have hidx2 : idx = i := hidx i (idx, d) hv
            rw [write_result, List.getElem?_set,
                if_neg (fun hh => hji ((hidx2 ▸ hh : i = j)).symm)]

/-- Order preservation of the parallel dispatcher: for any completion order
that is a permutation of the submitted indices, the output equals the
submission-ordered sequence of unit results with absent slots filtered. -/
theorem parallel_submission_order (unit : ParUnit) (n : Nat) (order : List Nat)
    (hperm : order.Perm (List.range n))
    (hidx : ∀ i p, unit i = .ok (some p) → p.1 = i)
    (hok : ∀ i, i < n → ∃ v, unit i = .ok v) :
    send_to_martian_parallel unit n order = .ok ((List.range n).filterMap (unitText unit)) := by
  have hmem : ∀ j, j ∈ order ↔ j < n := by
    intro j; rw [hperm.mem_iff, List.mem_range]
  obtain ⟨res, hres, hlen, hget⟩ := collectResults_spec unit hidx order (List.replicate n none)
    (fun i hi => hok i ((hmem i).1 hi))
    (fun j hj => Or.inl (by
      rw [List.getElem?_replicate, if_pos]
      rwa [List.length_replicate] at hj))
  rw [List.length_replicate] at hlen
  have hreseq : res = (List.range n).map (unitText unit) := by
    apply List.ext_getElem?
    intro j
    by_cases hj : j < n
    · rw [hget j (by rwa [List.length_replicate]), if_pos ((hmem j).2 hj),
          List.getElem?_map, List.getElem?_range hj]
      rfl
    · rw [List.getElem?_eq_none (by omega : res.length ≤ j),
          List.getElem?_eq_none
            (by rw [List.length_map, List.length_range]; omega)]
  unfold send_to_martian_parallel
  rw [hres]
  show Except.ok (res.filterMap id) = _
  rw [hreseq, List.filterMap_map]
  simp [Function.id_comp]

/-- Inversion of a normally-returning parallel dispatch: the output is the
collected slot sequence with absent slots filtered. -/
theorem parallel_ok_inv (unit : ParUnit) (n : Nat) (order : List Nat) (res : List String)
    (h : send_to_martian_parallel unit n order = .ok res) :
    ∃ results, collectResults unit (List.replicate n none) order = .ok results
      ∧ res = results.filterMap id := by
  unfold send_to_martian_parallel at h
  cases hcol : collectResults unit (List.replicate n none) order with
  | error e => rw [hcol] at h; exact absurd h (by simp)
  | ok results =>
      rw [hcol] at h
      simp only [Except.ok.injEq] at h
      exact ⟨results, rfl, h.symm⟩

/-- Every filled slot the collection loop produces either was already filled
in the initial slot sequence or is the normalized text of some unit that
appears in the completion order. -/
theorem collectResults_mem_text (unit : ParUnit) :
    ∀ (order : List Nat) (init res : List (Option String)),
      collectResults unit init order = .ok res →
      ∀ s : String, some s ∈ res →
        some s ∈ init ∨ ∃ i, i ∈ order ∧ unitText unit i = some s := by
  intro order
  induction order with
  | nil =>
    intro init res h s hs
    rw [collectResults] at h
    injection h with h2
    subst h2
    exact Or.inl hs
  | cons i rest ih =>
    intro init res h s hs
    cases hv : unit i with
    | error e =>
        rw [collectResults, hv] at h
        exact absurd h (by simp)
    | ok v =>
        rw [collectResults_cons unit init i rest v hv] at h
        rcases ih (write_result init v) res h s hs with hin | ⟨i2, hi2, ht⟩
        · cases v with
          | none => exact Or.inl hin
          | some p =>
            obtain ⟨idx, d⟩ := p
            rcases List.mem_or_eq_of_mem_set hin with hin2 | heq
            · exact Or.inl hin2
            · right
              refine ⟨i, by simp, ?_⟩
              rw [unitText, hv]
              exact heq.symm
        · exact Or.inr ⟨i2, by simp [hi2], ht⟩

/-- A dispatch unit with a cold cache entry whose first client call succeeds
returns the (text, actual model) pair and writes the entry through. -/
theorem single_fresh_first_try (text : String) (index : Nat) (ap fm : Option String)
    (mr : Nat) (ck prov : String) (cache : CacheMap) (client : Nat → ClientOutcome)
    (content : String) (mfield : Option String)
    (hmr : 0 < mr)
    (hmiss : cache (single_cache_hash text index ap fm ck prov) = none)
    (hc : client 0 = .ok (content, mfield)) :
    send_to_martian_single text index ap fm mr ck prov cache client
      = .ok ⟨some (index, some (.fresh content (mfield.getD (pyOrStr fm "gpt-4o-mini")))),
             save_to_cache cache (single_cache_hash text index ap fm ck prov)
               ⟨content, pyOrStr fm "gpt-4o-mini", mfield.getD (pyOrStr fm "gpt-4o-mini")⟩,
             1, []⟩ := by
  obtain ⟨j, rfl⟩ : ∃ j, mr = j + 1 := ⟨mr - 1, by omega⟩
  rw [send_single_cases, hmiss]
  show Except.ok (attemptLoop index (single_cache_hash text index ap fm ck prov)
        (pyOrStr fm "gpt-4o-mini") (j + 1) client cache (List.range (j + 1))) = _
  rw [List.range_eq_range', List.range'_succ,
      attemptLoop_cons_ok index _ _ (j + 1) client cache 0 _ content mfield hc]

/-- When one index always yields no text and every other index yields its
response, filtering the per-index texts equals mapping the responses over
the other indices in order. -/
theorem filterMap_single_fail (f : Nat → Option String) (k : Nat) (r : Nat → String)
    (hk : f k = none) :
    ∀ l : List Nat, (∀ i, i ∈ l → i ≠ k → f i = some (r i)) →
      l.filterMap f = (l.filter (fun i => !(i == k))).map r := by
  intro l
  induction l with
  | nil => intro _; rfl
  | cons a t ih =>
    intro hl
    by_cases ha : a = k
    · subst ha
      rw [List.filterMap_cons, hk, List.filter_cons, if_neg (by simp)]
      exact ih (fun i hi hik => hl i (by simp [hi]) hik)
    · rw [List.filterMap_cons, hl a (by simp) ha, List.filter_cons,
          if_pos (by simp [ha]), List.map_cons]
      rw [ih (fun i hi hik => hl i (by simp [hi]) hik)]

/-! ## C4, C5, C10: parallel dispatcher contracts. -/

/-- C4: order preservation.  Whatever completion order the futures finish in
(any permutation of the submitted indices), each normally-completing unit
that reports its own submission index lands in its own pre-sized slot, so
the dispatcher output is the submission-ordered sequence of per-index
results (absent slots filtered): the right-hand side does not depend on the
completion order. -/
theorem C4_order_preservation (unit : ParUnit) (n : Nat) (order : List Nat)
    (hperm : order.Perm (List.range n))
    (hidx : ∀ i p, unit i = .ok (some p) → p.1 = i)
    (hok : ∀ i, i < n → ∃ v, unit i = .ok v) :
    send_to_martian_parallel unit n order = .ok ((List.range n).filterMap (unitText unit)) :=
  parallel_submission_order unit n order hperm hidx hok

/-- Unit double whose every request succeeds with a per-index text. -/
def unitDemo : ParUnit := fun i => .ok (some (i, some (.fresh ("r" ++ toString i) "m")))

/-- Witness for C4: three units completing in the order 2, 0, 1 still
produce the submission-ordered output r0, r1, r2. -/
theorem C4_order_preservation_witness :
    send_to_martian_parallel unitDemo 3 [2, 0, 1] = .ok ["r0", "r1", "r2"] := by
  have h := C4_order_preservation unitDemo 3 [2, 0, 1] (by decide)
      (fun i p hp => by
        simp only [unitDemo, Except.ok.injEq, Option.some.injEq] at hp
        subst hp
        rfl)
      (fun i _ => ⟨some (i, some (.fresh ("r" ++ toString i) "m")), rfl⟩)
  rw [h]
  rfl

/-- C5: partial failure isolation.  When unit `k` ends failed (its slot
text is absent: permanent failure or retry exhaustion) while every other
unit succeeds with its response, the dispatch still returns normally with
exactly the other responses, in submission order, and the failed slot
dropped. -/
theorem C5_partial_failure_isolation (unit : ParUnit) (n : Nat) (order : List Nat) (k : Nat)
    (resp : Nat → String)
    (hperm : order.Perm (List.range n))
    (hidx : ∀ i p, unit i = .ok (some p) → p.1 = i)
    (hok : ∀ i, i < n → ∃ v, unit i = .ok v)
    (hkfail : unitText unit k = none)
    (hsucc : ∀ i, i < n → i ≠ k → unitText unit i = some (resp i)) :
    send_to_martian_parallel unit n order
      = .ok (((List.range n).filter (fun i => !(i == k))).map resp) := by
  rw [parallel_submission_order unit n order hperm hidx hok]
  rw [filterMap_single_fail (unitText unit) k resp hkfail (List.range n)
      (fun i hi hik => hsucc i (List.mem_range.1 hi) hik)]

/-- Unit double whose request 1 fails (absent data) while the rest succeed. -/
def unitOneFail : ParUnit := fun i =>
  .ok (some (i, if i = 1 then none else some (.fresh ("r" ++ toString i) "m")))

/-- Witness for C5: with unit 1 failing among three, dispatch returns
normally with exactly r0 and r2, in order. -/
theorem C5_partial_failure_isolation_witness :
    send_to_martian_parallel unitOneFail 3 [1, 2, 0] = .ok ["r0", "r2"] := by
  have h := C5_partial_failure_isolation unitOneFail 3 [1, 2, 0] 1
      (fun i => "r" ++ toString i) (by decide)
      (fun i p hp => by
        simp only [unitOneFail, Except.ok.injEq, Option.some.injEq] at hp
        subst hp
        rfl)
      (fun i _ => ⟨some (i, if i = 1 then none else some (.fresh ("r" ++ toString i) "m")), rfl⟩)
      rfl
      (by decide)
  rw [h]
  rfl

/-- C10: response shapes.  A cache hit returns only the stored response text
(no actual-model metadata); a fresh success returns the (text, actual model)
pair and records both in the cache; the dispatcher normalization keeps a
plain text as is and keeps only the first component of a pair; and every
element of a normally-returned parallel output is the normalized response
text of one of the processed units. -/
theorem C10_response_shape_normalization :
    (∀ (text : String) (index : Nat) (ap fm : Option String) (mr : Nat) (ck prov : String)
        (cache : CacheMap) (client : Nat → ClientOutcome) (entry : CacheEntry),
        cache (single_cache_hash text index ap fm ck prov) = some (.valid entry) →
        send_to_martian_single text index ap fm mr ck prov cache client
          = .ok ⟨some (index, some (.cachedText entry.response)), cache, 0, []⟩)
    ∧ (∀ (text : String) (index : Nat) (ap fm : Option String) (mr : Nat) (ck prov : String)
        (cache : CacheMap) (client : Nat → ClientOutcome) (content : String)
        (mfield : Option String),
        0 < mr →
        cache (single_cache_hash text index ap fm ck prov) = none →
        client 0 = .ok (content, mfield) →
        send_to_martian_single text index ap fm mr ck prov cache client
          = .ok ⟨some (index, some (.fresh content (mfield.getD (pyOrStr fm "gpt-4o-mini")))),
                 save_to_cache cache (single_cache_hash text index ap fm ck prov)
                   ⟨content, pyOrStr fm "gpt-4o-mini",
                    mfield.getD (pyOrStr fm "gpt-4o-mini")⟩, 1, []⟩)
    ∧ (∀ s : String, normalize_result (some (.cachedText s)) = some s)
    ∧ (∀ s am : String, normalize_result (some (.fresh s am)) = some s)
    ∧ (∀ (unit : ParUnit) (n : Nat) (order : List Nat) (res : List String) (s : String),
        send_to_martian_parallel unit n order = .ok res → s ∈ res →
        ∃ i, i ∈ order ∧ unitText unit i = some s) := by
  refine ⟨?_, ?_, fun _ => rfl, fun _ _ => rfl, ?_⟩
  · intro text index ap fm mr ck prov cache client entry h
    exact single_warm text index ap fm mr ck prov cache client entry h
  · intro text index ap fm mr ck prov cache client content mfield hmr hmiss hc
    exact single_fresh_first_try text index ap fm mr ck prov cache client content mfield
      hmr hmiss hc
  · intro unit n order res s h hs
    obtain ⟨results, hcol, hfil⟩ := parallel_ok_inv unit n order res h
    have hmem : some s ∈ results := by
      subst hfil
      rcases List.mem_filterMap.1 hs with ⟨a, ha, hid⟩
      rwa [show a = some s from hid] at ha
    rcases collectResults_mem_text unit order (List.replicate n none) results hcol s hmem with
      hin | hex
    · rcases List.mem_replicate.1 hin with ⟨_, hfalse⟩
      exact absurd hfalse (by simp)
    · exact hex

/-- Witness for C10: a warm unit returns only the text r; a cold unit with a
successful first call returns the pair (resp, gpt-4o); the normalization
equations at concrete values; and each element of a concrete parallel
output is the text of one of its units. -/
theorem C10_response_shape_normalization_witness :
    send_to_martian_single "t2" 0 none none 3 "run_0" "martian" warmAllCache clientAlways503
      = .ok ⟨some (0, some (.cachedText "r")), warmAllCache, 0, []⟩
    ∧ send_to_martian_single "t" 0 none none 3 "run_0" "martian" emptyCache clientAlwaysOk
      = .ok ⟨some (0, some (.fresh "resp" "gpt-4o")), cacheAfterFresh, 1, []⟩
    ∧ normalize_result (some (.cachedText "x")) = some "x"
    ∧ normalize_result (some (.fresh "x" "mm")) = some "x"
    ∧ (∃ i, i ∈ [0, 1, 2] ∧ unitText unitDemo i = some "r1") :=
  ⟨C10_response_shape_normalization.1 "t2" 0 none none 3 "run_0" "martian" warmAllCache
      clientAlways503 ⟨"r", "m", "am"⟩ rfl,
   C10_response_shape_normalization.2.1 "t" 0 none none 3 "run_0" "martian" emptyCache
      clientAlwaysOk "resp" (some "gpt-4o") (by omega) rfl rfl,
   C10_response_shape_normalization.2.2.1 "x",
   C10_response_shape_normalization.2.2.2.1 "x" "mm",
   C10_response_shape_normalization.2.2.2.2 unitDemo 3 [0, 1, 2] ["r0", "r1", "r2"] "r1"
      rfl (by simp)⟩

/-! ## The own-index hypothesis of C4/C5 holds for the embedded unit. -/

/-- The retry loop always reports the submitted index in its return tuple. -/
theorem attemptLoop_ret_index (index : Nat) (ch mtu : String) (mr : Nat)
    (client : Nat → ClientOutcome) (cache : CacheMap) :
    ∀ (l : List Nat) (p : Nat × Option UnitData),
      (attemptLoop index ch mtu mr client cache l).ret = some p → p.1 = index := by
  intro l
  induction l with
  | nil => intro p h; exact absurd h (by simp [attemptLoop])
  | cons a rest ih =>
    intro p h
    cases hcl : client a with
    | ok pr =>
      obtain ⟨content, mfield⟩ := pr
      rw [attemptLoop_cons_ok index ch mtu mr client cache a rest content mfield hcl] at h
      simp only [DispatchOut.ret, Option.some.injEq] at h
      subst h
      rfl
    | error e =>
      rw [attemptLoop_cons_error index ch mtu mr client cache a rest e hcl] at h
      by_cases hcond : strContains e "503" = true ∧ a < mr - 1
      · rw [if_pos hcond] at h
        exact ih p h
      · rw [if_neg hcond] at h
        simp only [DispatchOut.ret, Option.some.injEq] at h
        subst h
        rfl

/-- The dispatch unit always reports its submitted index. -/
theorem single_returns_own_index (text : String) (index : Nat) (ap fm : Option String)
    (mr : Nat) (ck prov : String) (cache : CacheMap) (client : Nat → ClientOutcome)
    (out : DispatchOut) (p : Nat × Option UnitData)
    (h : send_to_martian_single text index ap fm mr ck prov cache client = .ok out)
    (hp : out.ret = some p) : p.1 = index := by
  rw [send_single_cases] at h
  cases hcr : cache (single_cache_hash text index ap fm ck prov) with
  | none =>
      rw [hcr] at h
      simp only [Except.ok.injEq] at h
      subst h
      exact attemptLoop_ret_index index _ _ mr client cache _ p hp
  | some fd =>
      cases fd with
      | valid e =>
          rw [hcr] at h
          simp only [Except.ok.injEq] at h
          subst h
          simp only [DispatchOut.ret, Option.some.injEq] at hp
          subst hp
          rfl
      | corrupt => rw [hcr] at h; exact absurd h (by simp)

/-- The unit function actually run by the parallel dispatcher satisfies the
own-index hypothesis used in the order-preservation and failure-isolation
theorems. -/
theorem parallelUnit_own_index (text : String) (ap fm : Option String) (ck prov : String)
    (cache : CacheMap) (clients : Nat → Nat → ClientOutcome) :
    ∀ i p, parallelUnit text ap fm ck prov cache clients i = .ok (some p) → p.1 = i := by
  intro i p h
  unfold parallelUnit at h
  cases hs : send_to_martian_single text i ap fm 3 ck prov cache (clients i) with
  | error e => rw [hs] at h; exact absurd h (by simp [Except.map])
  | ok out =>
      rw [hs] at h
      simp only [Except.map, Except.ok.injEq] at h
      exact single_returns_own_index text i ap fm 3 ck prov cache (clients i) out p hs h
